import Mathlib

/-!
Shallow embedding of the IPC core of `react-vscode-webview-ipc`:
message type guards (`src/lib/types.ts`, `src/lib/types/log.ts`,
`src/lib/types/reducer.ts`), the log sanitizer (`src/lib/host/logger.ts`),
the client pending-request engine (`src/lib/client/WebviewProvider.tsx`),
the host broadcast registry (`src/lib/host/WebviewApiProvider.ts`),
the host message routing (`BaseWebviewViewProvider`) and the client
reducer engine (`src/lib/client/useVscodeState.ts`).

JavaScript runtime values are modelled by the inductive `JSVal`:
arrays carry both their element list and their attached named properties
(in JavaScript an array is an object and may carry extra string-keyed
properties).  Functions, symbols and BigInt values are modelled as opaque
tagged constructors: the code only ever asks `typeof` of them, clones
them (`structuredClone` throws on functions and symbols) or serializes
them (`JSON.stringify` throws on BigInt).
-/

namespace RVW

inductive JSVal : Type where
  | vNull : JSVal
  | vUndefined : JSVal
  | vBool : Bool → JSVal
  | vNum : Int → JSVal
  | vBigInt : Int → JSVal
  | vStr : String → JSVal
  | vSym : String → JSVal
  | vFun : String → JSVal
  | vArr : List JSVal → List (String × JSVal) → JSVal
  | vObj : List (String × JSVal) → JSVal

namespace JSVal

/-- Model of `typeof` (`typeof null` is `"object"`). -/
def typeOf : JSVal → String
  | vNull => "object"
  | vUndefined => "undefined"
  | vBool _ => "boolean"
  | vNum _ => "number"
  | vBigInt _ => "bigint"
  | vStr _ => "string"
  | vSym _ => "symbol"
  | vFun _ => "function"
  | vArr _ _ => "object"
  | vObj _ => "object"

/-- Model of `Array.isArray`. -/
def isArrayV : JSVal → Bool
  | vArr _ _ => true
  | _ => false

def isNullV : JSVal → Bool
  | vNull => true
  | _ => false

def isUndefV : JSVal → Bool
  | vUndefined => true
  | _ => false

end JSVal

/-- First binding of a key in a property list (JS objects have unique keys;
the model keeps them unique as well, lookup takes the first binding). -/
def plook : List (String × JSVal) → String → Option JSVal
  | [], _ => none
  | (k, v) :: rest, key => if k = key then some v else plook rest key

/-- Named own properties of a value; guards only read named properties of
objects and of arrays (where attached named properties live next to the
indexed elements). -/
def ownProps : JSVal → List (String × JSVal)
  | .vObj props => props
  | .vArr _ props => props
  | _ => []

/-- The `in` operator as used by the guards (they apply it only after the
`typeof v === \x22object\x22 && v !== null` checks, where it cannot throw). -/
def hasProp (v : JSVal) (key : String) : Bool :=
  (plook (ownProps v) key).isSome

/-- Property read `v[key]` on an object-like value; an absent property
reads as `undefined`. -/
def getPropD (v : JSVal) (key : String) : JSVal :=
  (plook (ownProps v) key).getD .vUndefined

/-- Strict equality `v === lit` against a string literal. -/
def jsEqStr (v : JSVal) (lit : String) : Bool :=
  match v with
  | .vStr s => s = lit
  | _ => false

/-! ## Message type guards (boolean results)

Each is a direct transliteration of the corresponding source guard;
the conjuncts appear in source order. -/

/-- Guard `isViewApiResponse` from `src/lib/types.ts` (maintained copy):
null check, undefined check, `typeof === \x22object\x22`, `type` tag,
`id` a string.  There is no `Array.isArray` rejection of the message. -/
def isViewApiResponse (m : JSVal) : Bool :=
  !m.isNullV && !m.isUndefV && (m.typeOf = "object") &&
  hasProp m "type" && jsEqStr (getPropD m "type") "response" &&
  hasProp m "id" && ((getPropD m "id").typeOf = "string")

/-- Guard `isViewApiError` from `src/lib/types.ts` (maintained copy). -/
def isViewApiError (m : JSVal) : Bool :=
  !m.isNullV && !m.isUndefV && (m.typeOf = "object") &&
  hasProp m "type" && jsEqStr (getPropD m "type") "error" &&
  hasProp m "id" && ((getPropD m "id").typeOf = "string") &&
  hasProp m "value" && ((getPropD m "value").typeOf = "string")

/-- Guard `isViewApiEvent` from `src/lib/types.ts` (maintained copy). -/
def isViewApiEvent (m : JSVal) : Bool :=
  !m.isNullV && !m.isUndefV && (m.typeOf = "object") &&
  hasProp m "type" && jsEqStr (getPropD m "type") "event" &&
  hasProp m "key" && ((getPropD m "key").typeOf = "string") &&
  hasProp m "value" && (getPropD m "value").isArrayV

/-- Guard `isLogMessage` from `src/lib/host/WebviewLogger.ts` (identical in
`src/lib/types/log.ts`): rejects null, non-objects and every array via
`Array.isArray`, then requires the `type`, `level`, `message` fields. -/
def isLogMessage (m : JSVal) : Bool :=
  if m.isNullV || !(m.typeOf = "object") || m.isArrayV then false
  else if !(hasProp m "type") || !jsEqStr (getPropD m "type") "log" then false
  else if !(hasProp m "level") || !((getPropD m "level").typeOf = "number") then false
  else if !(hasProp m "message") || !((getPropD m "message").typeOf = "string") then false
  else true

/-- Guard `isMyActionMessage` from `src/lib/types/reducer.ts`: an `act` envelope
addressed to `providerId`; the key may be a string or a symbol; `params`
must be an array.  No `Array.isArray` rejection of the message itself. -/
def isMyActionMessage (m : JSVal) (providerId : String) : Bool :=
  !m.isNullV && !m.isUndefV && (m.typeOf = "object") &&
  hasProp m "providerId" && hasProp m "type" && hasProp m "key" && hasProp m "params" &&
  jsEqStr (getPropD m "type") "act" &&
  ((getPropD m "providerId").typeOf = "string") &&
  jsEqStr (getPropD m "providerId") providerId &&
  (((getPropD m "key").typeOf = "string") || ((getPropD m "key").typeOf = "symbol")) &&
  (getPropD m "params").isArrayV

/-- Guard `isMyPatchMessage` from `src/lib/client/useVscodeState.ts`: a `patch`
envelope addressed to `id`.  The `key` and `patch` fields are only
required to be present, their types are not checked here. -/
def isMyPatchMessage (m : JSVal) (id : String) : Bool :=
  !m.isNullV && !m.isUndefV && (m.typeOf = "object") &&
  hasProp m "providerId" && hasProp m "type" && hasProp m "key" && hasProp m "patch" &&
  jsEqStr (getPropD m "type") "patch" &&
  ((getPropD m "providerId").typeOf = "string") &&
  jsEqStr (getPropD m "providerId") id

/-- Guard `isViewApiRequest` from `src/lib/types.ts` (maintained copy, the one
guarding `message.context !== null` before touching its members). -/
def isViewApiRequest (m : JSVal) : Bool :=
  !m.isNullV && !m.isUndefV && (m.typeOf = "object") &&
  hasProp m "type" && jsEqStr (getPropD m "type") "request" &&
  hasProp m "id" && ((getPropD m "id").typeOf = "string") &&
  hasProp m "key" && ((getPropD m "key").typeOf = "string") &&
  hasProp m "params" && (getPropD m "params").isArrayV &&
  (!(hasProp m "context") ||
    (getPropD m "context").isUndefV ||
    (((getPropD m "context").typeOf = "object") && !(getPropD m "context").isNullV &&
     hasProp (getPropD m "context") "viewId" &&
     hasProp (getPropD m "context") "viewType" &&
     hasProp (getPropD m "context") "timestamp" &&
     ((getPropD (getPropD m "context") "viewId").typeOf = "string") &&
     ((getPropD (getPropD m "context") "viewType").typeOf = "string") &&
     ((getPropD (getPropD m "context") "timestamp").typeOf = "number")))

/-! ## Exception-aware semantics for the legacy request guard

The second `isViewApiRequest` copy in `src/lib/types.ts` reads
`msg.context.viewId` after only `typeof msg.context === \x22object\x22`;
since `typeof null === \x22object\x22`, a null `context` reaches a member
access on `null`, which throws a `TypeError` in JavaScript.  Property
access is therefore modelled in an `Except` monad. -/

inductive JsErr : Type where
  | typeError : String → JsErr
deriving DecidableEq, Repr

/-- JavaScript truthiness of a value. -/
def truthy : JSVal → Bool
  | .vNull => false
  | .vUndefined => false
  | .vBool b => b
  | .vNum n => !(n = 0)
  | .vBigInt n => !(n = 0)
  | .vStr s => !(s = "")
  | .vSym _ => true
  | .vFun _ => true
  | .vArr _ _ => true
  | .vObj _ => true

/-- Member access `v[key]`: throws a `TypeError` on `null`/`undefined`,
otherwise reads the named own property (absent reads as `undefined`). -/
def getMem (v : JSVal) (key : String) : Except JsErr JSVal :=
  match v with
  | .vNull =>
      .error (.typeError ("Cannot read properties of null (reading " ++ key ++ ")"))
  | .vUndefined =>
      .error (.typeError ("Cannot read properties of undefined (reading " ++ key ++ ")"))
  | _ => .ok (getPropD v key)

/-- The legacy `isViewApiRequest` copy from `src/lib/types.ts`: condition
chain in source order; member accesses go through `getMem` so that the
unguarded `msg.context.viewId` access can throw. -/
def isViewApiRequestLegacy (m : JSVal) : Except JsErr Bool := do
  if !truthy m then return false
  if !(m.typeOf = "object") then return false
  let t ← getMem m "type"
  if !jsEqStr t "request" then return false
  let i ← getMem m "id"
  if !(i.typeOf = "string") then return false
  let k ← getMem m "key"
  if !(k.typeOf = "string") then return false
  let p ← getMem m "params"
  if !p.isArrayV then return false
  let c ← getMem m "context"
  if c.isUndefV then return true
  if !(c.typeOf = "object") then return false
  let vi ← getMem c "viewId"
  if !(vi.typeOf = "string") then return false
  let vt ← getMem c "viewType"
  if !(vt.typeOf = "string") then return false
  let ts ← getMem c "timestamp"
  if !(ts.typeOf = "number") then return false
  return true

/-! ## Log sanitizer (`src/lib/host/logger.ts`) -/

/-- The disallowed key list exactly as written in `src/lib/host/logger.ts`
line 5 — note the mixed-case entries. -/
def disallowedLogKeys : List String :=
  ["password", "secret", "token", "apiKey", "apiSecret", "content"]

/-- JavaScript `String.prototype.toLowerCase` (ASCII keys only appear in
the modelled payloads, where it agrees with per-character lowering). -/
def jsToLowerCase (s : String) : String := String.mk (s.data.map Char.toLower)

/-- String membership, modelling `Array.prototype.includes`, `Set.has`
and `Map.has` on string keys. -/
def strIn (k : String) : List String → Bool
  | [] => false
  | x :: xs => if x = k then true else strIn k xs

/-- Removal of the first occurrence of a string key, modelling
`Map.delete` on the key list of a map. -/
def eraseStr : List String → String → List String
  | [], _ => []
  | x :: xs, k => if x = k then xs else x :: eraseStr xs k

mutual

/-- Whether `structuredClone` succeeds on the value: it throws a
`DataCloneError` whenever a function or a symbol occurs anywhere in the
tree (named properties attached to arrays are cloned too). -/
def cloneable : JSVal → Bool
  | .vFun _ => false
  | .vSym _ => false
  | .vArr elems props => cloneableList elems && cloneableProps props
  | .vObj props => cloneableProps props
  | _ => true

def cloneableList : List JSVal → Bool
  | [] => true
  | v :: rest => cloneable v && cloneableList rest

def cloneableProps : List (String × JSVal) → Bool
  | [] => true
  | (_, v) :: rest => cloneable v && cloneableProps rest

end

mutual

/-- Sanitizer `removePromptsFromData` from `src/lib/host/logger.ts`:
null/undefined become `undefined`; arrays are mapped elementwise (as
`Array.prototype.map`, which drops attached named properties);
non-objects pass through; for objects the whole subtree is
`structuredClone`d inside the `try` — if the clone throws, the catch
returns `\x7b\x7d` — and then each entry is dropped when
`disallowedLogKeys.includes(key.toLowerCase())`, array values are mapped
elementwise, non-null object values are recursed into, and every other
value (primitives and `null`) is kept as is.  Since the clone visits the
whole subtree, the nested clones in recursive calls cannot fail once the
outer one succeeded. -/
def removePromptsFromData : JSVal → JSVal
  | .vNull => .vUndefined
  | .vUndefined => .vUndefined
  | .vArr elems _ => .vArr (removePromptsList elems) []
  | .vObj props =>
      if cloneable (.vObj props) then .vObj (removePromptsProps props)
      else .vObj []
  | v => v

def removePromptsList : List JSVal → List JSVal
  | [] => []
  | v :: rest => removePromptsFromData v :: removePromptsList rest

def removePromptsProps : List (String × JSVal) → List (String × JSVal)
  | [] => []
  | (k, v) :: rest =>
      if strIn (jsToLowerCase k) disallowedLogKeys then removePromptsProps rest
      else if v.isNullV then (k, .vNull) :: removePromptsProps rest
      else (k, removePromptsFromData v) :: removePromptsProps rest

end

mutual

/-- Model of `JSON.stringify` (string escaping elided: the modelled inputs contain
no characters needing escapes).  Serialization throws (`.error`) on a
BigInt; `undefined`, function and symbol values are dropped inside
objects and become `null` inside arrays (named properties attached to an
array are ignored). -/
def jsonStringify : JSVal → Except Unit String
  | .vNull => .ok "null"
  | .vUndefined => .ok "undefined"
  | .vFun _ => .ok "undefined"
  | .vSym _ => .ok "undefined"
  | .vBool b => .ok (if b then "true" else "false")
  | .vNum n => .ok (toString n)
  | .vBigInt _ => .error ()
  | .vStr s => .ok ("\"" ++ s ++ "\"")
  | .vArr elems _ => do
      let parts ← jsonStringifyElems elems
      .ok ("[" ++ String.intercalate "," parts ++ "]")
  | .vObj props => do
      let parts ← jsonStringifyProps props
      .ok ("\x7b" ++ String.intercalate "," parts ++ "\x7d")

def jsonStringifyElems : List JSVal → Except Unit (List String)
  | [] => .ok []
  | v :: rest => do
      let s ←
        if v.isUndefV || (v.typeOf = "function") || (v.typeOf = "symbol")
        then pure "null" else jsonStringify v
      let more ← jsonStringifyElems rest
      .ok (s :: more)

def jsonStringifyProps : List (String × JSVal) → Except Unit (List String)
  | [] => .ok []
  | (k, v) :: rest =>
      if v.isUndefV || (v.typeOf = "function") || (v.typeOf = "symbol") then
        jsonStringifyProps rest
      else do
        let s ← jsonStringify v
        let more ← jsonStringifyProps rest
        .ok (("\"" ++ k ++ "\":" ++ s) :: more)

end

/-- The data handling of `LoggerImpl.log` when an output channel is set
(`src/lib/host/logger.ts` lines 85-98): the sanitized payload is appended
as a `: JSON` suffix, no suffix is appended when the sanitized payload is
`undefined`, and the literal `unserializable data` replaces a payload
whose JSON serialization throws. -/
def logDataSuffix (data : JSVal) : Option String :=
  let cleanedData := removePromptsFromData data
  if cleanedData.isUndefV then none
  else
    match jsonStringify cleanedData with
    | .ok s => some s
    | .error _ => some "unserializable data"

/-! ## Client pending-request engine (`src/lib/client/WebviewProvider.tsx`,
`src/lib/client/types.ts`)

`DeferredPromise` is the single-settlement future: `resolve`/`reject`
check the private `settled` flag before settling, `reject` coerces its
reason to an `Error` (modelled by keeping only the message string),
`clearTimeout` drops the timeout handle and `markSettled` blocks any
further settlement.  The client state pairs the heap of every future
ever created (keyed by its request id, ids are unique) with the key set
of the `pendingRequests` map; a future removed from the map lives on in
the heap, exactly as a settled promise lives on in JavaScript. -/

def alookup {α : Type} : List (String × α) → String → Option α
  | [], _ => none
  | (k, v) :: rest, key => if k = key then some v else alookup rest key

inductive Settlement : Type where
  | resolved : JSVal → Settlement
  | rejected : String → Settlement

structure DeferredPromise where
  key : String
  settled : Bool
  result : Option Settlement
  hasTimeout : Bool

namespace DeferredPromise

def resolve (d : DeferredPromise) (value : JSVal) : DeferredPromise :=
  if d.settled then d
  else { d with settled := true, result := some (.resolved value) }

def reject (d : DeferredPromise) (reason : String) : DeferredPromise :=
  if d.settled then d
  else { d with settled := true, result := some (.rejected reason) }

def clearTimeout (d : DeferredPromise) : DeferredPromise :=
  { d with hasTimeout := false }

def markSettled (d : DeferredPromise) : DeferredPromise :=
  { d with settled := true }

end DeferredPromise

structure ClientState where
  futures : List (String × DeferredPromise)
  pending : List String

def updateFuture : List (String × DeferredPromise) → String →
    (DeferredPromise → DeferredPromise) → List (String × DeferredPromise)
  | [], _, _ => []
  | (k, d) :: rest, id, f =>
      if k = id then (k, f d) :: updateFuture rest id f
      else (k, d) :: updateFuture rest id f

/-- The modelled `response` envelope (`value` may be `vUndefined` for an
absent field: the guard never reads it and an absent property reads as
`undefined`). -/
def mkResponse (id : String) (value : JSVal) : JSVal :=
  .vObj [("type", .vStr "response"), ("id", .vStr id), ("value", value)]

/-- The modelled `error` envelope. -/
def mkError (id : String) (value : String) : JSVal :=
  .vObj [("type", .vStr "error"), ("id", .vStr id), ("value", .vStr value)]

/-- String content of a value the guard has already certified to be a
string. -/
def strOf : JSVal → String
  | .vStr s => s
  | _ => ""

/-- Handler `handleMessage` from `src/lib/client/WebviewProvider.tsx`: a
`response` with a pending id clears its timeout, removes the entry and
resolves with `message.value`; an `error` with a pending id clears its
timeout, removes the entry and rejects with `new Error(message.value)`;
a response/error with no pending entry, an `event`, a `providerId`
message and the legacy fallback all leave the pending table and every
future untouched. -/
def handleMessage (s : ClientState) (m : JSVal) : ClientState :=
  if isViewApiResponse m then
    let id := strOf (getPropD m "id")
    if strIn id s.pending then
      { futures := updateFuture s.futures id fun d =>
          (d.clearTimeout).resolve (getPropD m "value"),
        pending := eraseStr s.pending id }
    else s
  else if isViewApiError m then
    let id := strOf (getPropD m "id")
    if strIn id s.pending then
      { futures := updateFuture s.futures id fun d =>
          (d.clearTimeout).reject (strOf (getPropD m "value")),
        pending := eraseStr s.pending id }
    else s
  else s

/-- The unmount cleanup of `WebviewProvider` (second `useEffect`): every
future still in the pending map is timeout-cleared, rejected with the
disposal error and explicitly marked settled, then the map is cleared. -/
def rejectPending : List (String × DeferredPromise) → List String →
    List (String × DeferredPromise)
  | [], _ => []
  | (k, d) :: rest, pend =>
      if strIn k pend then
        (k, ((d.clearTimeout).reject "WebviewProvider unmounted").markSettled) ::
          rejectPending rest pend
      else (k, d) :: rejectPending rest pend

def unmountCleanup (s : ClientState) : ClientState :=
  { futures := rejectPending s.futures s.pending, pending := [] }

/-! ## Host broadcast registry (`src/lib/host/WebviewApiProvider.ts`)

`triggerEvent` is synchronous.  For every registered view it calls
`postMessage(event)` inside a `try`: a synchronous throw is caught and
the view id pushed onto the local `failedViews` array; an asynchronous
rejection is observed in a `.then` rejection callback, which runs as a
microtask only after the whole synchronous body — including the prune
loop that consults `failedViews` — has finished.  The model runs the
synchronous phase and then the microtask phase explicitly. -/

inductive SendBehavior : Type where
  | sendOk : SendBehavior
  | syncThrow : SendBehavior
  | asyncReject : SendBehavior
deriving DecidableEq, Repr

structure BroadcastOutcome where
  /-- Contents of `connectedViews` after the call and after every pending
  rejection callback has run (no later code reads `failedViews`). -/
  connectedViews : List (String × SendBehavior)
  /-- views whose `postMessage` promise resolved, with the envelope each
  one received. -/
  received : List (String × JSVal)
  /-- final contents of the local `failedViews` array. -/
  failedViews : List String

def triggerEvent (event : JSVal) (views : List (String × SendBehavior)) :
    BroadcastOutcome :=
  let failedSync := (views.filter fun v => v.2 = .syncThrow).map Prod.fst
  let pruned := views.filter fun v => !(v.2 = .syncThrow)
  let failedFinal :=
    failedSync ++ (views.filter fun v => v.2 = .asyncReject).map Prod.fst
  { connectedViews := pruned,
    received := (views.filter fun v => v.2 = .sendOk).map fun v => (v.1, event),
    failedViews := failedFinal }

/-- The `event` envelope built once per broadcast. -/
def mkEvent (key : String) (params : List JSVal) : JSVal :=
  .vObj [("type", .vStr "event"), ("key", .vStr key), ("params", .vArr params [])]

/-! ## Host message routing (`BaseWebviewViewProvider`) -/

inductive RouteTarget : Type where
  | logTarget : RouteTarget
  | actionTarget : RouteTarget
  | genericTarget : RouteTarget
deriving DecidableEq, Repr

/-- The maintained `onDidReceiveMessage` handler
(`src/lib/host/WebviewLogger.ts` concatenation, lines 124-149): log
messages return early, action messages addressed to this provider return
early, everything else goes to the caller-supplied `handleMessage`. -/
def hostRoute (providerId : String) (m : JSVal) : List RouteTarget :=
  if isLogMessage m then [.logTarget]
  else if isMyActionMessage m providerId then [.actionTarget]
  else [.genericTarget]

/-- The legacy `onDidReceiveMessage` handler (same file, lines 258-299):
the log branch has no `return`, so after logging the message continues
into the action check and, failing that, into the generic handler. -/
def hostRouteLegacy (providerId : String) (m : JSVal) : List RouteTarget :=
  (if isLogMessage m then [.logTarget] else []) ++
  (if isMyActionMessage m providerId then [.actionTarget] else [.genericTarget])

/-! ## Client reducer engine (`src/lib/client/useVscodeState.ts`,
`src/lib/client/ipcReducer.ts`)

The reducer map (`postReducer`) is a plain string-keyed object whose own
values may or may not be functions; a reducer function takes the
previous state and the patch value and returns the new state. -/

inductive RVal : Type where
  | fn : (JSVal → JSVal → JSVal) → RVal
  | raw : JSVal → RVal

abbrev RMap := List (String × RVal)

def dangerousKeys : List String := ["__proto__", "constructor", "prototype"]

/-- Proxy property names are always strings or symbols. -/
inductive PropName : Type where
  | str : String → PropName
  | sym : String → PropName

/-- Predicate `isFnKey` from `src/lib/client/ipcReducer.ts`:
it requires an own property of the map whose value is a function (the
modelled maps have no symbol-keyed entries). -/
def isFnKey (prop : PropName) (obj : RMap) : Bool :=
  match prop with
  | .str s =>
      match alookup obj s with
      | some (.fn _) => true
      | _ => false
  | .sym _ => false

/-- Outcome of one property access on the `actor` proxy: either the `get`
trap throws (no callable is produced, so nothing can reach the
transport), or it returns the callable that would post the `act`
envelope when invoked. -/
inductive ActorAccess : Type where
  | throwTypeError : String → ActorAccess
  | throwError : String → ActorAccess
  | callable : PropName → ActorAccess

/-- The `get` trap of the `actor` proxy in `useVscodeState`: the
non-string/non-symbol check cannot fire (proxy keys are exactly
strings and symbols, which `PropName` covers); dangerous string keys
throw; keys that are not function-valued own keys of the reducer map
throw; otherwise the dispatching callable is returned. -/
def actorGet (postReducer : RMap) (prop : PropName) : ActorAccess :=
  match prop with
  | .str s =>
      if strIn s dangerousKeys then
        .throwError ("Dangerous action key is blocked: " ++ s)
      else if isFnKey (.str s) postReducer then .callable prop
      else .throwError ("Unknown or invalid action: " ++ s)
  | .sym s =>
      if isFnKey (.sym s) postReducer then .callable prop
      else .throwError ("Unknown or invalid action: " ++ s)

/-- Coercion `String(v)` to a property key (for `String(data.key)` and the
`postReducer[data.key]` accesses; `String()` applied to a symbol yields
its description wrapper rather than throwing). -/
def toPropertyKey : JSVal → String
  | .vStr s => s
  | .vNum n => toString n
  | .vBigInt n => toString n
  | .vBool b => if b then "true" else "false"
  | .vNull => "null"
  | .vUndefined => "undefined"
  | .vSym s => "Symbol(" ++ s ++ ")"
  | .vFun t => t
  | .vArr _ _ => ""
  | .vObj _ => "[object Object]"

/-- Key set `validKeys` from `useVscodeState`:
`Object.keys(postReducer).filter((k) => !dangerousKeys.has(k))`. -/
def validKeys (postReducer : RMap) : List String :=
  (postReducer.map Prod.fst).filter fun k => !strIn k dangerousKeys

/-- The inbound-message listener installed by `useVscodeState`: messages
that are not a `patch` addressed to this provider are ignored without
touching the state; an accepted patch whose key is a valid, own,
function-valued member of the reducer map replaces the state with the
result of the reducer; any other accepted patch raises the
could-not-find-a-function error (`.error`) without running a reducer. -/
def patchListener (postReducer : RMap) (providerId : String) (state : JSVal)
    (m : JSVal) : Except String JSVal :=
  if isMyPatchMessage m providerId then
    let k := toPropertyKey (getPropD m "key")
    if strIn k (validKeys postReducer) && isFnKey (.str k) postReducer then
      match alookup postReducer k with
      | some (.fn f) => .ok (f state (getPropD m "patch"))
      | _ => .ok state
    else .error ("Could not find a function for " ++ k ++ " in postReducer")
  else .ok state

/-- The modelled `patch` envelope. -/
def mkPatch (providerId : String) (key : JSVal) (patch : JSVal) : JSVal :=
  .vObj [("type", .vStr "patch"), ("providerId", .vStr providerId),
         ("key", key), ("patch", patch)]

/-! ## Helper lemmas -/

theorem strIn_iff (k : String) (l : List String) : strIn k l = true ↔ k ∈ l := by
  induction l with
  | nil => simp [strIn]
  | cons x xs ih =>
      by_cases h : x = k
      · simp [strIn, h]
      · have hne : ¬ k = x := fun hk => h hk.symm
        simp [strIn, h, ih, hne]

theorem strIn_eraseStr_self (l : List String) (k : String) (h : l.Nodup) :
    strIn k (eraseStr l k) = false := by
  induction l with
  | nil => simp [eraseStr, strIn]
  | cons x xs ih =>
      rcases List.nodup_cons.mp h with ⟨hx, hxs⟩
      by_cases hxk : x = k
      · subst hxk
        rw [eraseStr, if_pos rfl]
        cases hin : strIn x xs
        · rfl
        · exact absurd ((strIn_iff x xs).mp hin) hx
      · rw [eraseStr, if_neg hxk, strIn, if_neg hxk]
        exact ih hxs

theorem strIn_eraseStr_ne (l : List String) (k q : String) (h : ¬ q = k) :
    strIn q (eraseStr l k) = strIn q l := by
  induction l with
  | nil => simp [eraseStr]
  | cons x xs ih =>
      by_cases hxk : x = k
      · subst hxk
        have hxq : ¬ x = q := fun hx2 => h hx2.symm
        simp [eraseStr, strIn, hxq]
      · rw [eraseStr, if_neg hxk, strIn, strIn]
        by_cases hxq : x = q
        · simp [hxq]
        · simp [hxq, ih]

theorem alookup_updateFuture_self (l : List (String × DeferredPromise)) (id : String)
    (d : DeferredPromise) (f : DeferredPromise → DeferredPromise)
    (h : alookup l id = some d) :
    alookup (updateFuture l id f) id = some (f d) := by
  induction l with
  | nil => simp [alookup] at h
  | cons p rest ih =>
      obtain ⟨pk, pv⟩ := p
      by_cases hp : pk = id
      · subst hp
        rw [alookup, if_pos rfl] at h
        cases h
        rw [updateFuture, if_pos rfl, alookup, if_pos rfl]
      · rw [alookup, if_neg hp] at h
        rw [updateFuture, if_neg hp, alookup, if_neg hp]
        exact ih h

theorem alookup_updateFuture_ne (l : List (String × DeferredPromise)) (id q : String)
    (f : DeferredPromise → DeferredPromise) (h : ¬ q = id) :
    alookup (updateFuture l id f) q = alookup l q := by
  induction l with
  | nil => simp [updateFuture, alookup]
  | cons p rest ih =>
      obtain ⟨pk, pv⟩ := p
      by_cases hp : pk = id
      · have hq : ¬ pk = q := fun hpq => h (hpq ▸ hp)
        rw [updateFuture, if_pos hp, alookup, if_neg hq, alookup, if_neg hq]
        exact ih
      · rw [updateFuture, if_neg hp, alookup, alookup]
        by_cases hq : pk = q
        · rw [if_pos hq, if_pos hq]
        · rw [if_neg hq, if_neg hq]
          exact ih

theorem jsToLowerCase_apiKey : jsToLowerCase "apiKey" = "apikey" := by decide

theorem jsToLowerCase_endpoint : jsToLowerCase "endpoint" = "endpoint" := by decide

/-! ## Claim theorems -/

/-- The payload used by the repository test
`should remove apiKey from data` (`tests/lib/host/logger.test.ts`). -/
def apiKeyPayload : JSVal :=
  .vObj [("apiKey", .vStr "key123"), ("endpoint", .vStr "/api")]

/-- C1: the claim states that every key matching `apikey` or `apisecret`
case-insensitively is removed by the sanitizer.  It is not: the code
lowercases the candidate key and then searches the mixed-case list
`[..., \x22apiKey\x22, \x22apiSecret\x22, ...]`, which the lowercased
forms can never match, so the payload of the own repository test
`should remove apiKey from data` test passes through unchanged — the
`apiKey` entry survives. -/
theorem removePromptsFromData_keeps_apiKey :
    removePromptsFromData apiKeyPayload = apiKeyPayload := by
  simp [apiKeyPayload, removePromptsFromData, removePromptsProps, cloneable,
        cloneableProps, disallowedLogKeys, strIn, jsToLowerCase_apiKey,
        jsToLowerCase_endpoint, JSVal.isNullV]

/-- One sane view, one view whose `postMessage` promise rejects, one view
whose `postMessage` throws synchronously. -/
def brokenBroadcastViews : List (String × SendBehavior) :=
  [("okView", .sendOk), ("rejectView", .asyncReject), ("throwView", .syncThrow)]

/-- C3: with N = 3 registered views of which M = 2 fail (one synchronous
throw, one asynchronous rejection), the surviving view receives the
envelope unchanged, but after the call — and even after every rejection
callback has run — the registry still holds 2 views, not N − M = 1: the
asynchronously-rejecting view is pushed onto `failedViews` only after the
prune loop has already consulted that array, so it is never pruned. -/
theorem triggerEvent_keeps_asyncReject_view :
    (triggerEvent (mkEvent "onDataUpdate" [.vStr "x"]) brokenBroadcastViews).received =
      [("okView", mkEvent "onDataUpdate" [.vStr "x"])] ∧
    (triggerEvent (mkEvent "onDataUpdate" [.vStr "x"]) brokenBroadcastViews).connectedViews =
      [("okView", .sendOk), ("rejectView", .asyncReject)] ∧
    (triggerEvent (mkEvent "onDataUpdate" [.vStr "x"]) brokenBroadcastViews).connectedViews.length
      = 2 ∧
    (triggerEvent (mkEvent "onDataUpdate" [.vStr "x"]) brokenBroadcastViews).failedViews =
      ["throwView", "rejectView"] :=
  ⟨rfl, rfl, rfl, rfl⟩

/-- A well-formed request whose optional `context` is `null`. -/
def nullContextRequest : JSVal :=
  .vObj [("type", .vStr "request"), ("id", .vStr "r1"), ("key", .vStr "fetchData"),
         ("params", .vArr [] []), ("context", .vNull)]

/-- C4: the claim states that no guard ever throws.  The legacy
`isViewApiRequest` copy throws a `TypeError` on a request whose
`context` is `null` (`typeof null === \x22object\x22` passes and
`msg.context.viewId` is then read off `null`), while the maintained
copy returns `false` on the same input. -/
theorem isViewApiRequestLegacy_throws_on_null_context :
    isViewApiRequestLegacy nullContextRequest =
      .error (.typeError "Cannot read properties of null (reading viewId)") ∧
    isViewApiRequest nullContextRequest = false :=
  ⟨rfl, rfl⟩

/-- An array carrying the fields of a response as attached properties. -/
def responseDecoratedArray : JSVal :=
  .vArr [] [("type", .vStr "response"), ("id", .vStr "r1")]

/-- An array carrying the fields of an event as attached properties. -/
def eventDecoratedArray : JSVal :=
  .vArr [] [("type", .vStr "event"), ("key", .vStr "k"), ("value", .vArr [] [])]

/-- An array carrying the fields of an action as attached properties. -/
def actionDecoratedArray : JSVal :=
  .vArr [] [("providerId", .vStr "p"), ("type", .vStr "act"), ("key", .vStr "inc"),
            ("params", .vArr [] [])]

/-- C5 counterexample: the claim states every guard returns `false` on
every array input, regardless of attached properties.  In fact
`isViewApiResponse`, `isViewApiEvent` and `isMyActionMessage` accept an
array carrying the expected fields as properties: an array is an object
and these guards never call `Array.isArray` on the message itself. -/
theorem guards_accept_decorated_arrays :
    isViewApiResponse responseDecoratedArray = true ∧
    isViewApiEvent eventDecoratedArray = true ∧
    isMyActionMessage actionDecoratedArray "p" = true :=
  ⟨rfl, rfl, rfl⟩

/-- C5 amended: arrays without the expected attached fields are rejected
by all the guards (they lack the mandatory fields), `isLogMessage`
rejects every array outright via its `Array.isArray` check, but
`isViewApiResponse`, `isViewApiEvent` and `isMyActionMessage` accept an
array that carries the expected fields as attached properties. -/
theorem guards_array_handling (elems : List JSVal) (props : List (String × JSVal))
    (pid : String) :
    (isViewApiResponse (.vArr elems []) = false ∧
     isViewApiEvent (.vArr elems []) = false ∧
     isMyActionMessage (.vArr elems []) pid = false ∧
     isLogMessage (.vArr elems props) = false) ∧
    (isViewApiResponse responseDecoratedArray = true ∧
     isViewApiEvent eventDecoratedArray = true ∧
     isMyActionMessage actionDecoratedArray "p" = true) := by
  refine ⟨⟨?_, ?_, ?_, ?_⟩, rfl, rfl, rfl⟩ <;>
    simp [isViewApiResponse, isViewApiEvent, isMyActionMessage, isLogMessage,
          hasProp, ownProps, plook, JSVal.isArrayV]

/-- A well-formed log message. -/
def sampleLogMessage : JSVal :=
  .vObj [("type", .vStr "log"), ("level", .vNum 1), ("message", .vStr "hello")]

/-- C6: the claim states that the shared host message handler routes
each message to exactly one of log, action and generic handling.  The
maintained handler does (third conjunct: every message reaches exactly
one target), but the legacy handler misses the `return` after its log
branch, so a log message is both logged and handed to the generic
`handleMessage`. -/
theorem hostRouteLegacy_double_routes_log_messages :
    hostRoute "test.provider" sampleLogMessage = [.logTarget] ∧
    hostRouteLegacy "test.provider" sampleLogMessage = [.logTarget, .genericTarget] ∧
    ∀ (pid : String) (m : JSVal), (hostRoute pid m).length = 1 := by
  refine ⟨rfl, rfl, fun pid m => ?_⟩
  by_cases h1 : isLogMessage m
  · simp [hostRoute, h1]
  · by_cases h2 : isMyActionMessage m pid <;> simp [hostRoute, h1, h2]

theorem strIn_validKeys_dangerous (postReducer : RMap) (k : String)
    (h : strIn k dangerousKeys = true) : strIn k (validKeys postReducer) = false := by
  cases hin : strIn k (validKeys postReducer)
  · rfl
  · rcases List.mem_filter.mp ((strIn_iff _ _).mp hin) with ⟨-, hpred⟩
    rw [h] at hpred
    simp at hpred

/-- C7: the three dangerous key names are rejected by the reducer engine
whatever the reducer map contains.  On the action proxy the `get` trap
throws the dangerous-key error, so no callable exists and nothing can be
posted; an inbound patch bearing a dangerous key raises the
could-not-find-a-function error without running any reducer, because
`validKeys` filters the dangerous names out of the key set even when the
map has such a name as an own function-valued key. -/
theorem dangerous_keys_always_rejected (postReducer : RMap) (pid : String)
    (st p : JSVal) :
    (actorGet postReducer (.str "__proto__") =
      .throwError "Dangerous action key is blocked: __proto__") ∧
    (actorGet postReducer (.str "constructor") =
      .throwError "Dangerous action key is blocked: constructor") ∧
    (actorGet postReducer (.str "prototype") =
      .throwError "Dangerous action key is blocked: prototype") ∧
    (patchListener postReducer pid st (mkPatch pid (.vStr "__proto__") p) =
      .error "Could not find a function for __proto__ in postReducer") ∧
    (patchListener postReducer pid st (mkPatch pid (.vStr "constructor") p) =
      .error "Could not find a function for constructor in postReducer") ∧
    (patchListener postReducer pid st (mkPatch pid (.vStr "prototype") p) =
      .error "Could not find a function for prototype in postReducer") := by
  have hd1 : strIn "__proto__" dangerousKeys = true := rfl
  have hd2 : strIn "constructor" dangerousKeys = true := rfl
  have hd3 : strIn "prototype" dangerousKeys = true := rfl
  refine ⟨?_, ?_, ?_, ?_, ?_, ?_⟩ <;>
    simp [actorGet, patchListener, isMyPatchMessage, mkPatch, hasProp, ownProps,
          plook, jsEqStr, getPropD, JSVal.typeOf, JSVal.isNullV, JSVal.isUndefV,
          toPropertyKey, dangerousKeys, strIn,
          strIn_validKeys_dangerous postReducer _ hd1,
          strIn_validKeys_dangerous postReducer _ hd2,
          strIn_validKeys_dangerous postReducer _ hd3]

/-- C8: an inbound message that is not a `patch` addressed to this
provider leaves the reducer state untouched — no reducer runs, nothing
is raised — and conversely anything other than returning the state
unchanged (a state replacement or a raised error) can only happen for a
`patch` message whose `providerId` matches. -/
theorem patchListener_ignores_unmatched (postReducer : RMap) (pid : String)
    (st m : JSVal) :
    (isMyPatchMessage m pid = false → patchListener postReducer pid st m = .ok st) ∧
    (patchListener postReducer pid st m ≠ .ok st → isMyPatchMessage m pid = true) := by
  constructor
  · intro h
    simp [patchListener, h]
  · intro h
    cases hm : isMyPatchMessage m pid
    · exact absurd (by simp [patchListener, hm]) h
    · rfl

/-- Witness for C8: a `response` envelope is not a patch for provider
`p1`, so the listener returns the state unchanged. -/
theorem patchListener_ignores_unmatched_witness :
    patchListener [] "p1" (.vStr "s0") (mkResponse "r1" .vUndefined) = .ok (.vStr "s0") :=
  (patchListener_ignores_unmatched [] "p1" (.vStr "s0") (mkResponse "r1" .vUndefined)).1 rfl

theorem jsToLowerCase_big : jsToLowerCase "big" = "big" := by decide

/-- C10: when `structuredClone` throws inside the sanitizer (the payload
is not cloneable), the catch returns the empty object, so the whole data
payload — non-sensitive keys included — disappears from the log line,
which renders the suffix `\x7b\x7d`; the `unserializable data` marker
appears only when the later `JSON.stringify` throws, as it does on a
cloneable payload containing a BigInt. -/
theorem sanitizer_clone_failure_drops_payload (props : List (String × JSVal))
    (h : cloneable (.vObj props) = false) :
    removePromptsFromData (.vObj props) = .vObj [] ∧
    logDataSuffix (.vObj props) = some "\x7b\x7d" ∧
    logDataSuffix (.vObj [("big", .vBigInt 9007199254740991)]) =
      some "unserializable data" := by
  refine ⟨?_, ?_, ?_⟩
  · simp [removePromptsFromData, h]
  · simp [logDataSuffix, removePromptsFromData, h, JSVal.isUndefV,
          jsonStringify, jsonStringifyProps, String.intercalate,
          Bind.bind, Except.bind]
  · simp [logDataSuffix, removePromptsFromData, removePromptsProps, cloneable,
          cloneableProps, disallowedLogKeys, strIn, jsToLowerCase_big,
          JSVal.isNullV, JSVal.isUndefV, jsonStringify, jsonStringifyProps,
          JSVal.typeOf, Bind.bind, Except.bind]

/-- Witness for C10: a payload holding one harmless key and one function
value is not cloneable, and the theorem applies to it. -/
theorem sanitizer_clone_failure_drops_payload_witness :
    cloneable (.vObj [("safe", .vStr "data"), ("fn", .vFun "callback")]) = false ∧
    (removePromptsFromData (.vObj [("safe", .vStr "data"), ("fn", .vFun "callback")]) =
        .vObj [] ∧
      logDataSuffix (.vObj [("safe", .vStr "data"), ("fn", .vFun "callback")]) =
        some "\x7b\x7d" ∧
      logDataSuffix (.vObj [("big", .vBigInt 9007199254740991)]) =
        some "unserializable data") :=
  ⟨by simp [cloneable, cloneableProps],
   sanitizer_clone_failure_drops_payload _ (by simp [cloneable, cloneableProps])⟩

theorem isViewApiResponse_mkResponse (id : String) (v : JSVal) :
    isViewApiResponse (mkResponse id v) = true := by
  simp [isViewApiResponse, mkResponse, hasProp, ownProps, plook, getPropD, jsEqStr,
        JSVal.typeOf, JSVal.isNullV, JSVal.isUndefV]

theorem isViewApiResponse_mkError (id : String) (e : String) :
    isViewApiResponse (mkError id e) = false := by
  simp [isViewApiResponse, mkError, hasProp, ownProps, plook, getPropD, jsEqStr,
        JSVal.typeOf, JSVal.isNullV, JSVal.isUndefV]

theorem isViewApiError_mkError (id : String) (e : String) :
    isViewApiError (mkError id e) = true := by
  simp [isViewApiError, mkError, hasProp, ownProps, plook, getPropD, jsEqStr,
        JSVal.typeOf, JSVal.isNullV, JSVal.isUndefV]

theorem handleMessage_mkResponse (s : ClientState) (id : String) (v : JSVal)
    (hp : strIn id s.pending = true) :
    handleMessage s (mkResponse id v) =
      { futures := updateFuture s.futures id fun dd => (dd.clearTimeout).resolve v,
        pending := eraseStr s.pending id } := by
  unfold handleMessage
  rw [isViewApiResponse_mkResponse]
  simp [hp, mkResponse, getPropD, ownProps, plook, strOf]

theorem handleMessage_mkError (s : ClientState) (id : String) (e : String)
    (hp : strIn id s.pending = true) :
    handleMessage s (mkError id e) =
      { futures := updateFuture s.futures id fun dd => (dd.clearTimeout).reject e,
        pending := eraseStr s.pending id } := by
  unfold handleMessage
  rw [isViewApiResponse_mkError, isViewApiError_mkError]
  simp [hp, mkError, getPropD, ownProps, plook, strOf]

theorem not_pending_noop (s : ClientState) (id : String) (v : JSVal) (e : String)
    (h : strIn id s.pending = false) :
    handleMessage s (mkResponse id v) = s ∧ handleMessage s (mkError id e) = s := by
  constructor
  · simp [handleMessage, isViewApiResponse_mkResponse, mkResponse, getPropD,
          ownProps, plook, strOf, h]
  · simp [handleMessage, isViewApiResponse_mkError, isViewApiError_mkError, mkError,
          getPropD, ownProps, plook, strOf, h]

/-- C2: a `response` (resp. `error`) carrying a pending request id
settles exactly the future stored for that id — resolved with the
message value (resp. rejected with the message string), its timeout
cleared — while every other future and every other pending id is
untouched; the entry leaves the pending table, and a second delivery of
a `response` or `error` with the same id leaves the state entirely
unchanged. -/
theorem response_error_settle_exactly_once
    (s : ClientState) (id : String) (d : DeferredPromise) (v : JSVal) (e : String)
    (hd : alookup s.futures id = some d) (hp : strIn id s.pending = true)
    (hns : d.settled = false) (hnd : s.pending.Nodup) :
    (alookup (handleMessage s (mkResponse id v)).futures id =
        some { key := d.key, settled := true, result := some (.resolved v),
               hasTimeout := false } ∧
      (∀ q, ¬ q = id →
        alookup (handleMessage s (mkResponse id v)).futures q = alookup s.futures q) ∧
      strIn id (handleMessage s (mkResponse id v)).pending = false ∧
      (∀ q, ¬ q = id →
        strIn q (handleMessage s (mkResponse id v)).pending = strIn q s.pending) ∧
      handleMessage (handleMessage s (mkResponse id v)) (mkResponse id v) =
        handleMessage s (mkResponse id v) ∧
      handleMessage (handleMessage s (mkResponse id v)) (mkError id e) =
        handleMessage s (mkResponse id v)) ∧
    (alookup (handleMessage s (mkError id e)).futures id =
        some { key := d.key, settled := true, result := some (.rejected e),
               hasTimeout := false } ∧
      (∀ q, ¬ q = id →
        alookup (handleMessage s (mkError id e)).futures q = alookup s.futures q) ∧
      strIn id (handleMessage s (mkError id e)).pending = false ∧
      (∀ q, ¬ q = id →
        strIn q (handleMessage s (mkError id e)).pending = strIn q s.pending) ∧
      handleMessage (handleMessage s (mkError id e)) (mkResponse id v) =
        handleMessage s (mkError id e) ∧
      handleMessage (handleMessage s (mkError id e)) (mkError id e) =
        handleMessage s (mkError id e)) := by
  constructor
  · rw [handleMessage_mkResponse s id v hp]
    refine ⟨?_, ?_, ?_, ?_, ?_, ?_⟩
    · show alookup (updateFuture s.futures id fun dd => (dd.clearTimeout).resolve v) id
        = some { key := d.key, settled := true, result := some (.resolved v),
                 hasTimeout := false }
      rw [alookup_updateFuture_self s.futures id d _ hd]
      simp [DeferredPromise.clearTimeout, DeferredPromise.resolve, hns]
    · exact fun q hq => alookup_updateFuture_ne s.futures id q _ hq
    · exact strIn_eraseStr_self s.pending id hnd
    · exact fun q hq => strIn_eraseStr_ne s.pending id q hq
    · exact (not_pending_noop _ id v e (strIn_eraseStr_self s.pending id hnd)).1
    · exact (not_pending_noop _ id v e (strIn_eraseStr_self s.pending id hnd)).2
  · rw [handleMessage_mkError s id e hp]
    refine ⟨?_, ?_, ?_, ?_, ?_, ?_⟩
    · show alookup (updateFuture s.futures id fun dd => (dd.clearTimeout).reject e) id
        = some { key := d.key, settled := true, result := some (.rejected e),
                 hasTimeout := false }
      rw [alookup_updateFuture_self s.futures id d _ hd]
      simp [DeferredPromise.clearTimeout, DeferredPromise.reject, hns]
    · exact fun q hq => alookup_updateFuture_ne s.futures id q _ hq
    · exact strIn_eraseStr_self s.pending id hnd
    · exact fun q hq => strIn_eraseStr_ne s.pending id q hq
    · exact (not_pending_noop _ id v e (strIn_eraseStr_self s.pending id hnd)).1
    · exact (not_pending_noop _ id v e (strIn_eraseStr_self s.pending id hnd)).2

/-- A still-pending future created for request `r1`. -/
def wDeferred1 : DeferredPromise :=
  { key := "fetchData", settled := false, result := none, hasTimeout := true }

/-- A still-pending future created for request `r2`. -/
def wDeferred2 : DeferredPromise :=
  { key := "updateSettings", settled := false, result := none, hasTimeout := false }

/-- A client state with two pending requests. -/
def wState : ClientState :=
  { futures := [("r1", wDeferred1), ("r2", wDeferred2)], pending := ["r1", "r2"] }

/-- Witness for C2: instantiated at a state with two pending requests. -/
theorem response_error_settle_exactly_once_witness :
    (alookup (handleMessage wState (mkResponse "r1" (.vStr "ok"))).futures "r1" =
        some { key := "fetchData", settled := true,
               result := some (.resolved (.vStr "ok")), hasTimeout := false } ∧
      (∀ q, ¬ q = "r1" →
        alookup (handleMessage wState (mkResponse "r1" (.vStr "ok"))).futures q =
          alookup wState.futures q) ∧
      strIn "r1" (handleMessage wState (mkResponse "r1" (.vStr "ok"))).pending = false ∧
      (∀ q, ¬ q = "r1" →
        strIn q (handleMessage wState (mkResponse "r1" (.vStr "ok"))).pending =
          strIn q wState.pending) ∧
      handleMessage (handleMessage wState (mkResponse "r1" (.vStr "ok")))
          (mkResponse "r1" (.vStr "ok")) =
        handleMessage wState (mkResponse "r1" (.vStr "ok")) ∧
      handleMessage (handleMessage wState (mkResponse "r1" (.vStr "ok")))
          (mkError "r1" "boom") =
        handleMessage wState (mkResponse "r1" (.vStr "ok"))) ∧
    (alookup (handleMessage wState (mkError "r1" "boom")).futures "r1" =
        some { key := "fetchData", settled := true,
               result := some (.rejected "boom"), hasTimeout := false } ∧
      (∀ q, ¬ q = "r1" →
        alookup (handleMessage wState (mkError "r1" "boom")).futures q =
          alookup wState.futures q) ∧
      strIn "r1" (handleMessage wState (mkError "r1" "boom")).pending = false ∧
      (∀ q, ¬ q = "r1" →
        strIn q (handleMessage wState (mkError "r1" "boom")).pending =
          strIn q wState.pending) ∧
      handleMessage (handleMessage wState (mkError "r1" "boom"))
          (mkResponse "r1" (.vStr "ok")) =
        handleMessage wState (mkError "r1" "boom") ∧
      handleMessage (handleMessage wState (mkError "r1" "boom"))
          (mkError "r1" "boom") =
        handleMessage wState (mkError "r1" "boom")) :=
  response_error_settle_exactly_once wState "r1" wDeferred1 (.vStr "ok") "boom"
    rfl rfl rfl (by decide)

theorem handleMessage_empty_pending (s : ClientState) (h : s.pending = [])
    (m : JSVal) : handleMessage s m = s := by
  by_cases h1 : isViewApiResponse m
  · simp [handleMessage, h1, h, strIn]
  · by_cases h2 : isViewApiError m <;> simp [handleMessage, h1, h2, h, strIn]

theorem alookup_rejectPending (l : List (String × DeferredPromise))
    (pend : List String) (id : String) (d : DeferredPromise)
    (hd : alookup l id = some d) (hp : strIn id pend = true) :
    alookup (rejectPending l pend) id =
      some (((d.clearTimeout).reject "WebviewProvider unmounted").markSettled) := by
  induction l with
  | nil => simp [alookup] at hd
  | cons p rest ih =>
      obtain ⟨pk, pv⟩ := p
      by_cases hpk : pk = id
      · subst hpk
        rw [alookup, if_pos rfl] at hd
        cases hd
        rw [rejectPending, if_pos hp, alookup, if_pos rfl]
      · rw [alookup, if_neg hpk] at hd
        by_cases hsp : strIn pk pend = true
        · rw [rejectPending, if_pos hsp, alookup, if_neg hpk]
          exact ih hd
        · rw [rejectPending, if_neg hsp, alookup, if_neg hpk]
          exact ih hd

/-- C9: provider teardown rejects every still-pending future with the
disposal error, clears its timeout handle, marks it settled and empties
the pending table; afterwards every inbound message whatsoever — in
particular a late `response` or `error` for one of those ids — leaves
the state untouched (and the handler is a total function: nothing is
thrown). -/
theorem unmountCleanup_rejects_and_blocks (s : ClientState) (id : String)
    (d : DeferredPromise) (hd : alookup s.futures id = some d)
    (hp : strIn id s.pending = true) (hns : d.settled = false) :
    alookup (unmountCleanup s).futures id =
      some { key := d.key, settled := true,
             result := some (.rejected "WebviewProvider unmounted"),
             hasTimeout := false } ∧
    (unmountCleanup s).pending = [] ∧
    ∀ m, handleMessage (unmountCleanup s) m = unmountCleanup s := by
  refine ⟨?_, rfl, fun m => handleMessage_empty_pending _ rfl m⟩
  calc alookup (unmountCleanup s).futures id
      = some (((d.clearTimeout).reject "WebviewProvider unmounted").markSettled) :=
        alookup_rejectPending s.futures s.pending id d hd hp
    _ = some { key := d.key, settled := true,
               result := some (.rejected "WebviewProvider unmounted"),
               hasTimeout := false } := by
        simp [DeferredPromise.clearTimeout, DeferredPromise.reject,
              DeferredPromise.markSettled, hns]

/-- Witness for C9: the two-pending-requests state of the teardown
scenario given in the spec. -/
theorem unmountCleanup_rejects_and_blocks_witness :
    alookup (unmountCleanup wState).futures "r1" =
      some { key := "fetchData", settled := true,
             result := some (.rejected "WebviewProvider unmounted"),
             hasTimeout := false } ∧
    (unmountCleanup wState).pending = [] ∧
    ∀ m, handleMessage (unmountCleanup wState) m = unmountCleanup wState :=
  unmountCleanup_rejects_and_blocks wState "r1" wDeferred1 rfl rfl rfl

end RVW
